import Mathlib

/-!
Shallow embedding of the `codice_fiscale` Rust crate (src/lib.rs, src/utils.rs,
src/belfiore.rs). Strings are modelled as `List Char`; `str::to_uppercase` is
modelled character-wise by `Char.toUpper` (the ASCII fragment, which is all the
tables and claims exercise). `u8` arithmetic is modelled as `Nat` with an
explicit `% 256`. Fallible Rust code returns `Except`/`RResult`; a Rust panic
(`.expect`, `unwrap`, `HashMap` indexing with a missing key) is the `crash`
outcome, distinct from a returned `Err`.
-/

/-- `str::to_uppercase`, character-wise (ASCII fragment). -/
def upper (s : List Char) : List Char := s.map Char.toUpper

/-- `static CONSONANTS : &str = "BCDFGHJKLMNPQRSTVWXYZ"` (lib.rs:72, utils.rs:1). -/
def CONSONANTS : List Char := "BCDFGHJKLMNPQRSTVWXYZ".toList

/-- `static VOWELS : &str = "AEIOU"` (lib.rs:73, utils.rs:2). -/
def VOWELS : List Char := "AEIOU".toList

/-- `static CENTURY_BASE : i32 = 2000` (lib.rs:74). -/
def CENTURY_BASE : Int := 2000

/-- `static MONTHLETTERS : [char; 12]` (lib.rs:75). -/
def MONTHLETTERS : List Char := ['A', 'B', 'C', 'D', 'E', 'H', 'L', 'M', 'P', 'R', 'S', 'T']

/-- `static CHECKMODULI : [char; 26]` (lib.rs:77-80). -/
def CHECKMODULI : List Char :=
  ['A', 'B', 'C', 'D', 'E', 'F', 'G', 'H', 'I', 'J', 'K', 'L', 'M',
   'N', 'O', 'P', 'Q', 'R', 'S', 'T', 'U', 'V', 'W', 'X', 'Y', 'Z']

/-- The `CHECKCHARS` weight map (lib.rs:81-122): character to
(odd-position weight, even-position weight); `none` models a missing key
(indexing a `HashMap` with a missing key panics). -/
def CHECKCHARS (c : Char) : Option (Nat × Nat) :=
  match c with
  | 'A' => some (1, 0)
  | 'B' => some (0, 1)
  | 'C' => some (5, 2)
  | 'D' => some (7, 3)
  | 'E' => some (9, 4)
  | 'F' => some (13, 5)
  | 'G' => some (15, 6)
  | 'H' => some (17, 7)
  | 'I' => some (19, 8)
  | 'J' => some (21, 9)
  | 'K' => some (2, 10)
  | 'L' => some (4, 11)
  | 'M' => some (18, 12)
  | 'N' => some (20, 13)
  | 'O' => some (11, 14)
  | 'P' => some (3, 15)
  | 'Q' => some (6, 16)
  | 'R' => some (8, 17)
  | 'S' => some (12, 18)
  | 'T' => some (14, 19)
  | 'U' => some (16, 20)
  | 'V' => some (10, 21)
  | 'W' => some (22, 22)
  | 'X' => some (25, 23)
  | 'Y' => some (24, 24)
  | 'Z' => some (23, 25)
  | '0' => some (1, 0)
  | '1' => some (0, 1)
  | '2' => some (5, 2)
  | '3' => some (7, 3)
  | '4' => some (9, 4)
  | '5' => some (13, 5)
  | '6' => some (15, 6)
  | '7' => some (17, 7)
  | '8' => some (19, 8)
  | '9' => some (21, 9)
  | _ => none

/-- The summation loop of `calc_checkchar` (lib.rs:413-416): `checksum` is a
`u8`, so each addition is taken `% 256`; a character missing from `CHECKCHARS`
is a panic, modelled as `none`. -/
def checkSumGo : List (Nat × Char) → Nat → Option Nat
  | [], acc => some acc
  | (i, c) :: rest, acc =>
    match CHECKCHARS c with
    | none => none
    | some w => checkSumGo rest ((acc + (if i % 2 == 0 then w.1 else w.2)) % 256)

/-- `CodiceFiscale::calc_checkchar` (lib.rs:409-420) as a pure function of the
body string `self.codice`. -/
def calc_checkchar (codice : List Char) : Option Char :=
  (checkSumGo codice.enum 0).map (fun s => CHECKMODULI.getD (s % 26) 'A')

/-- `enum Gender { M, F }` (lib.rs:30-32). -/
inductive Gender where
  | M : Gender
  | F : Gender
deriving DecidableEq, Repr

/-- `struct PersonData` (lib.rs:37-46). -/
structure PersonData where
  name : List Char
  surname : List Char
  birthdate : List Char
  gender : Gender
  belfiore : List Char
deriving DecidableEq, Repr

/-- `struct CodiceFiscaleParts` (lib.rs:49-58). -/
structure CodiceFiscaleParts where
  surname : List Char
  name : List Char
  birthyear : List Char
  birthmonth : Char
  birthday : List Char
  birthdate : List Char
  belfiore : List Char
  checkchar : Char
deriving DecidableEq, Repr

/-- `struct CodiceFiscale` (lib.rs:66-70). -/
structure CodiceFiscale where
  persondata : PersonData
  codice : List Char
  codice_parts : CodiceFiscaleParts
deriving DecidableEq, Repr

/-- Outcome of a fallible Rust function: `Ok`, a returned `Err` (the message of
the `bail!`), or a panic (`crash`, carrying the panic message). -/
inductive RResult (α : Type) where
  | ok : α → RResult α
  | err : List Char → RResult α
  | crash : List Char → RResult α
deriving DecidableEq, Repr

/-- Map over the `ok` payload. -/
def RResult.mapOut {α β : Type} (f : α → β) : RResult α → RResult β
  | .ok a => .ok (f a)
  | .err e => .err e
  | .crash e => .crash e

/-- True exactly on the `ok` outcome. -/
def RResult.isOk {α : Type} : RResult α → Bool
  | .ok _ => true
  | _ => false

/-- `time::strptime(s, "%Y-%m-%d")` as in the `time 0.1` crate: exactly four
year digits, dash, two month digits in 1..=12, dash, two day digits in 1..=31
(no month/day cross-validation); trailing input is ignored. Returns
(year, month, day). -/
def strptime_ymd : List Char → Option (Nat × Nat × Nat)
  | y1 :: y2 :: y3 :: y4 :: '-' :: m1 :: m2 :: '-' :: d1 :: d2 :: _ =>
    if y1.isDigit && y2.isDigit && y3.isDigit && y4.isDigit &&
       m1.isDigit && m2.isDigit && d1.isDigit && d2.isDigit then
      let y := 1000 * (y1.toNat - 48) + 100 * (y2.toNat - 48) + 10 * (y3.toNat - 48) + (y4.toNat - 48)
      let m := 10 * (m1.toNat - 48) + (m2.toNat - 48)
      let d := 10 * (d1.toNat - 48) + (d2.toNat - 48)
      if 1 ≤ m && m ≤ 12 && 1 ≤ d && d ≤ 31 then some (y, m, d) else none
    else none
  | _ => none

/-- Decimal digits of a natural number (`to_string` / `format!` on a `u32`). -/
def natChars (n : Nat) : List Char := Nat.toDigits 10 n

/-- `i32::to_string` (lib.rs:387). -/
def intChars (n : Int) : List Char :=
  if n < 0 then '-' :: natChars n.natAbs else natChars n.toNat

/-- `format!("{:02}", n)` for the (always nonnegative here) day value (lib.rs:389). -/
def pad2 (n : Nat) : List Char :=
  if n < 10 then '0' :: natChars n else natChars n

/-- `format!("{:04}", n)` (lib.rs:283). -/
def pad4 (n : Int) : List Char :=
  if n < 0 then '-' :: (List.replicate (3 - (natChars n.natAbs).length) '0' ++ natChars n.natAbs)
  else List.replicate (4 - (natChars n.toNat).length) '0' ++ natChars n.toNat

/-- `i32::from_str_radix(s, 10)` (lib.rs:277): optional sign followed by at
least one decimal digit (overflow is irrelevant at the two-character call
site). -/
def digitsToNat (l : List Char) : Option Nat :=
  if l.isEmpty then none
  else if l.all Char.isDigit then
    some (l.foldl (fun acc c => 10 * acc + (c.toNat - 48)) 0)
  else none

/-- See `digitsToNat`; this adds the sign handling of `from_str_radix`. -/
def i32_from_str_radix_10 (s : List Char) : Option Int :=
  match s with
  | '+' :: rest => (digitsToNat rest).map (fun n => (n : Int))
  | '-' :: rest => (digitsToNat rest).map (fun n => -(n : Int))
  | _ => (digitsToNat s).map (fun n => (n : Int))

/-- `is_consonant` (utils.rs:8-10); also the membership test of lib.rs:321. -/
def is_consonant (c : Char) : Bool := CONSONANTS.contains c

/-- `is_vowel` (utils.rs:4-6); also the membership test of lib.rs:323. -/
def is_vowel (c : Char) : Bool := VOWELS.contains c

/-- The consonant accumulator of the loops at lib.rs:319-326 and lib.rs:350-357:
consonants of the uppercased input, in order. -/
def consonantsOf (s : List Char) : List Char := (upper s).filter is_consonant

/-- The vowel accumulator of the same loops: the `else if` branch runs only on
characters that are not consonants. -/
def vowelsOf (s : List Char) : List Char :=
  (upper s).filter (fun c => !is_consonant c && is_vowel c)

/-- `CodiceFiscale::calc_surname` (lib.rs:316-344) as a pure function of
`self.persondata.surname`. The `while` loops pushing vowels from the front and
then `'X'`s are written as `take`/`replicate`. -/
def calc_surname (surname : List Char) : List Char :=
  let cs := consonantsOf surname
  let vs := vowelsOf surname
  let base := if 3 < cs.length then cs.take 3 else cs
  let withV := (base ++ vs).take 3
  withV ++ List.replicate (3 - withV.length) 'X'

/-- `CodiceFiscale::calc_name` (lib.rs:347-376): with more than three
consonants, take the 1st plus the slice `[2..4]`; otherwise the same
consonant-vowel-pad scheme as the surname. -/
def calc_name (name : List Char) : List Char :=
  let cs := consonantsOf name
  let vs := vowelsOf name
  if 3 < cs.length then
    cs.take 1 ++ (cs.drop 2).take 2
  else
    let withV := (cs ++ vs).take 3
    withV ++ List.replicate (3 - withV.length) 'X'

/-- `CodiceFiscale::calc_birthdate` (lib.rs:378-396), returning the parts
(year string, month letter, day string). Note the year is `to_string`ed with
no zero padding, while the day gets `{:02}`. -/
def calc_birthdate (pd : PersonData) : Except (List Char) (List Char × Char × List Char) :=
  match strptime_ymd pd.birthdate with
  | none => .error "invalid-birthdate".toList
  | some (y, m, d) =>
    let birthyear := intChars (if (y : Int) < CENTURY_BASE then (y : Int) - 1900 else (y : Int) - CENTURY_BASE)
    let birthmonth := MONTHLETTERS.getD (m - 1) 'A'
    let birthday := pad2 (if pd.gender = Gender.F then 40 + d else d)
    .ok (birthyear, birthmonth, birthday)

/-- `\w` of the `regex` crate (ASCII fragment): letter, digit or underscore. -/
def isWordChar (c : Char) : Bool := c.isAlpha || c.isDigit || c == '_'

/-- `PAT_BELFIORE = r"\w\d\d\d"` matching at the head of the input. -/
def belfioreAt : List Char → Bool
  | a :: b :: c :: d :: _ => isWordChar a && b.isDigit && c.isDigit && d.isDigit
  | _ => false

/-- `Regex::new(PAT_BELFIORE).is_match`: the unanchored pattern matches at any
position. -/
def belfioreMatch : List Char → Bool
  | [] => false
  | a :: rest => belfioreAt (a :: rest) || belfioreMatch rest

/-- `CodiceFiscale::calc_belfiore` (lib.rs:398-406). -/
def calc_belfiore (pd : PersonData) : Except (List Char) (List Char) :=
  if belfioreMatch pd.belfiore then .ok (upper pd.belfiore)
  else .error "invalid-belfiore-code".toList

/-- `^[A-Z]{3}$` member test (the fragments checked are length-3 slices). -/
def isUpperAZ (c : Char) : Bool := 'A' ≤ c && c ≤ 'Z'

/-- `CodiceFiscale::new` (lib.rs:169-195): concatenate surname, name,
birthdate and belfiore fragments, then append the check character computed
over that body. -/
def CodiceFiscale.new (initdata : PersonData) : RResult CodiceFiscale :=
  let s := calc_surname initdata.surname
  let n := calc_name initdata.name
  match calc_birthdate initdata with
  | .error e => .err e
  | .ok (byr, bm, bd) =>
    match calc_belfiore initdata with
    | .error e => .err e
    | .ok bf =>
      let body := s ++ n ++ (byr ++ [bm] ++ bd) ++ bf
      match calc_checkchar body with
      | none => .crash "no-entry-found-for-key".toList
      | some cc =>
        .ok {
          persondata := initdata
          codice := body ++ [cc]
          codice_parts := {
            surname := s, name := n, birthyear := byr, birthmonth := bm,
            birthday := bd, birthdate := byr ++ [bm] ++ bd, belfiore := bf,
            checkchar := cc } }

/-- `CodiceFiscale::parse` (lib.rs:223-303). `time::now_utc().tm_year + 1900`
is the wall clock, passed in as `tm_now_year`. The input is uppercased only
for the check-character computation (lib.rs:251); all the slice checks run on
the original `codice`. The `.expect(...)` calls at lib.rs:277 and lib.rs:285
are panics, modelled as `crash`. The parsed `persondata` keeps the initial
`Gender.M` (the source never assigns it) and the day fragment is pushed into
the birthdate string with no female −40 correction. -/
def CodiceFiscale.parse (tm_now_year : Int) (codice : List Char) : RResult CodiceFiscale :=
  if codice.length ≠ 16 then .err "invalid-length".toList else
  match (upper codice).getLast? with
  | none => .err "invalid-checkchar".toList
  | some codice_checkchar =>
    match calc_checkchar ((upper codice).dropLast) with
    | none => .crash "no-entry-found-for-key".toList
    | some cc =>
      if cc ≠ codice_checkchar then .err "invalid-checkchar".toList else
      let surname := codice.take 3
      if ¬ (surname.length == 3 && surname.all isUpperAZ) then .err "invalid-surname".toList else
      let name := (codice.drop 3).take 3
      if ¬ (name.length == 3 && name.all isUpperAZ) then .err "invalid-name".toList else
      let birthyearFrag := (codice.drop 6).take 2
      match i32_from_str_radix_10 birthyearFrag with
      | none => .crash "invalid-birthyear".toList
      | some yy =>
        let birthyear_num := CENTURY_BASE + yy
        let birthyear := if tm_now_year > birthyear_num then birthyear_num else birthyear_num - 100
        let birthmonthCh := codice.getD 8 ' '
        match MONTHLETTERS.findIdx? (fun c => c == birthmonthCh) with
        | none => .crash "invalid-birthmonth".toList
        | some mi =>
          let birthdayFrag := (codice.drop 9).take 2
          let birthdate := pad4 birthyear ++ ['-'] ++ pad2 (mi + 1) ++ ['-'] ++ birthdayFrag
          match strptime_ymd birthdate with
          | none => .err ("invalid-birthdate".toList ++ birthdate)
          | some _ =>
            let belfiore := (codice.drop 11).take 4
            if ¬ belfioreMatch belfiore then .err "invalid-belfiore-code".toList else
            .ok {
              persondata := {
                name := name, surname := surname, birthdate := birthdate,
                gender := Gender.M, belfiore := belfiore }
              codice := upper codice
              codice_parts := {
                surname := surname, name := name, birthyear := birthyearFrag,
                birthmonth := birthmonthCh, birthday := birthdayFrag,
                birthdate := [], belfiore := belfiore, checkchar := cc } }

/-- `extract_consonants` (utils.rs:12-18) — despite its name it collects the
vowels of the uppercased input in reversed order. -/
def extract_consonants (name : List Char) : List Char :=
  ((upper name).filter is_vowel).reverse

/-- `calc_name_component` (utils.rs:20-50). The `dbg!` wrapper returns its
argument unchanged. -/
def calc_name_component (name : List Char) : List Char :=
  let nameU := upper name
  let consonants : List Char :=
    if (nameU.filter is_consonant).length ≤ 3 then
      (nameU.filter is_consonant).take 3
    else
      (((nameU.filter is_consonant).enum.filter (fun x => x.1 != 1)).map (fun x => x.2)).take 3
  let consonants :=
    if consonants.length < 3 then
      consonants ++ (nameU.filter is_vowel).take (3 - consonants.length)
    else consonants
  if consonants.length < 3 then consonants ++ List.replicate (3 - consonants.length) 'X'
  else consonants

/-- The vowel `while` loop of `calc_surname_component` (utils.rs:62-65):
while the fragment is shorter than 3 and vowels remain, pop (from the end of
the reversed-vowel list) and push. -/
def popLoop (cf : List Char) (vw : List Char) : List Char :=
  if h : cf.length < 3 ∧ vw ≠ [] then popLoop (cf ++ [vw.getLast h.2]) vw.dropLast
  else cf
termination_by vw.length
decreasing_by
  simp only [List.length_dropLast]
  exact Nat.sub_lt (List.length_pos.mpr h.2) Nat.one_pos

/-- `calc_surname_component` (utils.rs:52-70). -/
def calc_surname_component (name : List Char) : List Char :=
  let part_consonants := (upper name).filter is_consonant
  let part_vowels := extract_consonants name
  let cf_part := popLoop (part_consonants.take 3) part_vowels
  cf_part ++ List.replicate (3 - cf_part.length) 'X'

/-- `struct Municipality` (belfiore.rs:2-7). -/
structure Municipality where
  name : List Char
  province : List Char
  belfiore_code : List Char
deriving DecidableEq, Repr

/-- `Belfiore::lookup_belfiore` (belfiore.rs:35-39) over an explicit store. -/
def lookup_belfiore (store : List Municipality) (belfiore : List Char) : Option Municipality :=
  store.find? (fun x => x.belfiore_code == upper belfiore)

/-- Modelled from the spec: the municipality store parsed from `belfiore.txt`
(the data file is not under src/, only `Belfiore::init` that loads it). The
spec (§3, §8) and the repository tests pin down the entries exercised here:
Maniago with code E889, Roma with code H501, Bologna with code A944; every
birthplace code is one uppercase letter followed by three digits. -/
def belfiore_store : List Municipality :=
  [⟨"MANIAGO".toList, "PN".toList, "E889".toList⟩,
   ⟨"ROMA".toList, "RM".toList, "H501".toList⟩,
   ⟨"BOLOGNA".toList, "BO".toList, "A944".toList⟩]

/-- C7: `CodiceFiscale::new` applied to Michele Beltrame, born 1977-11-04,
male, birthplace code E889, returns `Ok` and the code string is
`BLTMHL77S04E889G`. -/
theorem encode_known_vector_beltrame :
    (CodiceFiscale.new ⟨"Michele".toList, "Beltrame".toList, "1977-11-04".toList,
      Gender.M, "E889".toList⟩).mapOut (fun cf => cf.codice) =
    .ok "BLTMHL77S04E889G".toList := by
  decide

/-- C1 (code bug): the encode/parse round trip fails for female persons.
Encoding Maria Rossi, born 1970-01-01, female, birthplace H501 yields
`RSSMRA70A41H501W`, but `parse` pushes the raw day fragment 41 into the date
string without subtracting the female offset, so the date check rejects it
and parse returns an error instead of reporting the same day and sex. -/
theorem encode_parse_roundtrip_fails_for_female :
    (CodiceFiscale.new ⟨"Maria".toList, "Rossi".toList, "1970-01-01".toList,
      Gender.F, "H501".toList⟩).mapOut (fun cf => cf.codice) =
      .ok "RSSMRA70A41H501W".toList ∧
    CodiceFiscale.parse 2026 "RSSMRA70A41H501W".toList =
      .err "invalid-birthdate1970-01-41".toList := by
  decide

/-- C2 (code bug): `calc_birthdate` renders the year with `to_string()` and no
zero padding, so encoding a person born in 2003 yields a 15-character code
whose year fragment is `"3"`, not a 16-character code with fragment `"03"`. -/
theorem encode_year_2003_not_zero_padded :
    (CodiceFiscale.new ⟨"Michele".toList, "Beltrame".toList, "2003-11-04".toList,
      Gender.M, "E889".toList⟩).mapOut
        (fun cf => (cf.codice, cf.codice.length, cf.codice_parts.birthyear)) =
    .ok ("BLTMHL3S04E889K".toList, 15, "3".toList) := by
  decide

/-- C3 (code bug): `parse "RSSMRA70A41H501W"` does not return `Ok` with sex
Female and birthdate 1970-01-01: the code never subtracts 40 from the day
fragment (and never assigns the parsed gender), so the reconstructed date
`1970-01-41` fails validation and parse returns an error. -/
theorem parse_female_vector_rejected :
    CodiceFiscale.parse 2026 "RSSMRA70A41H501W".toList =
      .err "invalid-birthdate1970-01-41".toList ∧
    ("RSSMRA70A41H501W".toList.drop 9).take 2 = "41".toList := by
  decide

/-- C4 (code bug): the checksum accumulator is a `u8`, so the sum wraps modulo
256. On the all-`Z` body the exact sum of the mandated weights is 359, whose
check letter is `V` (359 % 26 = 21), but the code computes
(359 % 256) % 26 = 25 and yields `Z`. -/
theorem checkchar_u8_overflow_wraps :
    calc_checkchar (List.replicate 15 'Z') = some 'Z' ∧
    (List.replicate 15 'Z').enum.foldl
      (fun acc x => acc + (if x.1 % 2 == 0 then ((CHECKCHARS x.2).getD (0, 0)).1
                           else ((CHECKCHARS x.2).getD (0, 0)).2)) 0 = 359 ∧
    CHECKMODULI.getD (359 % 26) 'A' = 'V' ∧
    CHECKMODULI.getD (359 % 256 % 26) 'A' = 'Z' := by
  decide

/-- C5 (code bug): `parse` is not panic-free. On a 16-character input that
passes the checksum but whose year characters are not digits, the
`i32::from_str_radix(...).expect("invalid-birthyear")` at lib.rs:277 panics
instead of returning the documented `invalid-birthyear` error. -/
theorem parse_nondigit_year_panics :
    CodiceFiscale.parse 2026 "BLTMHLAAS04E889J".toList =
      .crash "invalid-birthyear".toList := by
  decide

/-- C6 counterexample: `parse` accepts a code whose birthplace fragment
`9999` is not in the municipality directory (every directory code is a letter
followed by three digits), because the only check performed is the unanchored
regex `\w\d\d\d`, which digits also satisfy. So "parse fails with
InvalidBelfioreCode iff the fragment is not found by lookup" is false. -/
theorem parse_accepts_shape_valid_unknown_belfiore :
    (CodiceFiscale.parse 2026 "RSSMRA70A019999G".toList).mapOut
      (fun cf => cf.persondata.belfiore) = .ok "9999".toList ∧
    lookup_belfiore belfiore_store "9999".toList = none := by
  decide

/-- C8 counterexample: `parse` accepts `BLTMHL77S04E889G` but rejects its
lowercase form with `invalid-surname`, because the input is uppercased only
for the check-character comparison while the structural checks run on the
original string. -/
theorem parse_rejects_lowercase_code :
    (CodiceFiscale.parse 2026 "BLTMHL77S04E889G".toList).mapOut
      (fun cf => cf.codice) = .ok "BLTMHL77S04E889G".toList ∧
    CodiceFiscale.parse 2026 "bltmhl77s04e889g".toList =
      .err "invalid-surname".toList := by
  decide

/-- Helper: the parse birthdate error message (a fixed prefix followed by the
reconstructed date) is never the belfiore error message. -/
theorem birthdate_err_ne (bd : List Char) :
    ("invalid-birthdate".toList ++ bd) ≠ "invalid-belfiore-code".toList := by
  intro h
  have h17 : ("invalid-birthdate".toList ++ bd).take 17 =
      "invalid-belfiore-code".toList.take 17 := by rw [h]
  rw [List.take_left' (by decide)] at h17
  exact absurd h17 (by decide)

/-- C6 amended: for every candidate code, `parse` fails with
`invalid-belfiore-code` only when the 4-character fragment at positions 11-14
fails the unanchored `\w\d\d\d` shape check, and succeeds only when that
fragment passes it; the municipality directory is never consulted, so a
shape-valid fragment absent from the directory is accepted. -/
theorem parse_belfiore_shape_check_only (n : Int) (c : List Char) :
    (CodiceFiscale.parse n c = .err "invalid-belfiore-code".toList →
      belfioreMatch ((c.drop 11).take 4) = false) ∧
    ((CodiceFiscale.parse n c).isOk = true →
      belfioreMatch ((c.drop 11).take 4) = true) := by
  constructor
  · intro h
    simp only [CodiceFiscale.parse] at h
    repeat' split at h
    all_goals first
      | exact RResult.noConfusion h
      | exact absurd h (by decide)
      | (injection h with h'; exact absurd h' (birthdate_err_ne _))
      | simp_all [Bool.not_eq_true]
  · intro h
    simp only [CodiceFiscale.parse] at h
    repeat' split at h
    all_goals simp only [RResult.isOk] at h
    all_goals try exact absurd h (by decide)
    all_goals simp_all [not_not]

/-- Witness for the C6 amended theorem at a concrete input: the code
`RSSMRA70A01E88AE` (valid checksum, fragment `E88A` whose last character is
not a digit) is rejected with `invalid-belfiore-code`, and indeed its
fragment fails the shape check. -/
theorem parse_belfiore_shape_check_only_witness :
    belfioreMatch (("RSSMRA70A01E88AE".toList.drop 11).take 4) = false :=
  (parse_belfiore_shape_check_only 2026 "RSSMRA70A01E88AE".toList).1 (by decide)

/-- C8 amended: `parse` returns `Ok` only when characters 0-5 of the original
input are already uppercase letters: the uppercasing at lib.rs:251 feeds only
the check-character computation, while the surname/name structural checks run
on the original input, so the lowercase form of an accepted code is not
accepted. -/
theorem parse_ok_implies_first_six_uppercase (n : Int) (c : List Char)
    (h : (CodiceFiscale.parse n c).isOk = true) :
    (c.take 6).all isUpperAZ = true := by
  simp only [CodiceFiscale.parse] at h
  repeat' split at h
  all_goals simp only [RResult.isOk] at h
  all_goals try exact absurd h (by decide)
  all_goals
    have h6 : List.take 6 c = List.take 3 c ++ List.take 3 (List.drop 3 c) :=
      List.take_add c 3 3
    rw [h6, List.all_append]
    simp_all

/-- Witness for the C8 amended theorem: `BLTMHL77S04E889G` parses `Ok` and its
first six characters are uppercase letters. -/
theorem parse_ok_implies_first_six_uppercase_witness :
    ("BLTMHL77S04E889G".toList.take 6).all isUpperAZ = true :=
  parse_ok_implies_first_six_uppercase 2026 "BLTMHL77S04E889G".toList (by decide)

/-- Helper: every consonant of the fixed table is an uppercase letter. -/
theorem consonant_isUpper {c : Char} (h : is_consonant c = true) : isUpperAZ c = true := by
  have hm : c ∈ CONSONANTS := List.mem_of_elem_eq_true h
  exact List.all_eq_true.mp (by decide : CONSONANTS.all isUpperAZ = true) c hm

/-- Helper: every vowel of the fixed table is an uppercase letter. -/
theorem vowel_isUpper {c : Char} (h : is_vowel c = true) : isUpperAZ c = true := by
  have hm : c ∈ VOWELS := List.mem_of_elem_eq_true h
  exact List.all_eq_true.mp (by decide : VOWELS.all isUpperAZ = true) c hm

/-- Helper: the consonant and vowel tables are disjoint. -/
theorem vowel_not_consonant {c : Char} (h : is_vowel c = true) : is_consonant c = false := by
  have hm : c ∈ VOWELS := List.mem_of_elem_eq_true h
  fin_cases hm <;> decide

/-- Helper: because no vowel is a consonant, the `else if` vowel accumulator of
lib.rs equals the plain vowel filter used by utils.rs. -/
theorem vowelsOf_eq (s : List Char) : vowelsOf s = (upper s).filter is_vowel := by
  unfold vowelsOf
  apply List.filter_congr
  intro a _
  cases hv : is_vowel a
  · simp [hv]
  · simp [hv, vowel_not_consonant hv]

/-- Helper: a list longer than 3 has four explicit head elements. -/
theorem four_head (l : List Char) (h : 3 < l.length) :
    ∃ a b c d t, l = a :: b :: c :: d :: t := by
  rcases l with _ | ⟨a, _ | ⟨b, _ | ⟨c, _ | ⟨d, t⟩⟩⟩⟩ <;> simp at h ⊢

/-- Helper: `getLast` of a list with a single appended element. -/
theorem getLast_app_singleton (l : List Char) (a : Char) (h : l ++ [a] ≠ []) :
    (l ++ [a]).getLast h = a := by
  simp [List.getLast_append]

/-- Helper: closed form of the vowel `while` loop of
`calc_surname_component`: popping from the reversed vowel list appends the
vowels in original order, up to length 3. -/
theorem popLoop_eq (vw : List Char) : ∀ cf : List Char, cf.length ≤ 3 →
    popLoop cf vw = cf ++ vw.reverse.take (3 - cf.length) := by
  induction vw using List.reverseRecOn with
  | nil =>
    intro cf h
    rw [popLoop]
    simp
  | append_singleton rs a ih =>
    intro cf h
    rw [popLoop]
    by_cases hlt : cf.length < 3
    · rw [dif_pos ⟨hlt, by simp⟩]
      rw [getLast_app_singleton, List.dropLast_concat]
      rw [ih (cf ++ [a]) (by simp; omega)]
      have h3 : 3 - cf.length = (3 - (cf ++ [a]).length) + 1 := by simp; omega
      rw [List.reverse_append]
      simp only [List.reverse_singleton, List.singleton_append, h3, List.take_succ_cons]
      simp
    · rw [dif_neg (fun hc => hlt hc.1)]
      have h0 : 3 - cf.length = 0 := by omega
      simp [h0]

/-- Helper: a guarded vowel-extension step equals its unguarded form (when the
fragment is already full, nothing is taken). -/
theorem vowelX_if (l v : List Char) :
    (if l.length < 3 then l ++ v.take (3 - l.length) else l) =
    l ++ v.take (3 - l.length) := by
  split
  · rfl
  · rename_i h
    have h0 : 3 - l.length = 0 := by omega
    simp [h0]

/-- Helper: a guarded `X`-padding step equals its unguarded form. -/
theorem padX_if (l : List Char) :
    (if l.length < 3 then l ++ List.replicate (3 - l.length) 'X' else l) =
    l ++ List.replicate (3 - l.length) 'X' := by
  split
  · rfl
  · rename_i h
    have h0 : 3 - l.length = 0 := by omega
    simp [h0]

/-- Helper (C10): the two name-fragment implementations agree. -/
theorem calc_name_agree (s : List Char) : calc_name s = calc_name_component s := by
  simp only [calc_name, calc_name_component, consonantsOf]
  by_cases h : 3 < ((upper s).filter is_consonant).length
  · have hgt : ¬ ((upper s).filter is_consonant).length ≤ 3 := by omega
    rw [if_pos h, if_neg hgt]
    obtain ⟨a, b, c, d, t, hcs⟩ := four_head _ h
    rw [hcs]
    have hc0 : ((((a :: b :: c :: d :: t).enum.filter (fun x => x.1 != 1)).map
        (fun x => x.2)).take 3) = [a, c, d] := rfl
    rw [hc0]
    have h1 : ¬ (([a, c, d] : List Char).length < 3) := by simp
    rw [if_neg h1, if_neg h1]
    rfl
  · have hle : ((upper s).filter is_consonant).length ≤ 3 := by omega
    rw [if_neg h, if_pos hle]
    rw [vowelsOf_eq]
    have hcs3 : ((upper s).filter is_consonant).take 3 = (upper s).filter is_consonant :=
      List.take_of_length_le hle
    rw [hcs3, List.take_append_eq_append_take, hcs3, vowelX_if, padX_if]

/-- Helper (C10): the two surname-fragment implementations agree. -/
theorem calc_surname_agree (s : List Char) : calc_surname s = calc_surname_component s := by
  simp only [calc_surname, calc_surname_component, extract_consonants, consonantsOf]
  rw [popLoop_eq _ _ (by simp [List.length_take])]
  rw [List.reverse_reverse, vowelsOf_eq]
  have hbase : (if 3 < ((upper s).filter is_consonant).length
      then ((upper s).filter is_consonant).take 3
      else (upper s).filter is_consonant) = ((upper s).filter is_consonant).take 3 := by
    split
    · rfl
    · rename_i h
      exact (List.take_of_length_le (by omega)).symm
  rw [hbase, List.take_append_eq_append_take]
  simp [List.take_take]

/-- C9: for every input name the computed given-name fragment has exactly
three characters, all uppercase letters; with more than three consonants it is
the 1st, 3rd and 4th consonant in original order, otherwise the consonants
followed by the vowels (in order), truncated to three and padded with `X`;
the empty input yields `XXX`. -/
theorem calc_name_fragment_rule (nm : List Char) :
    (calc_name nm).length = 3 ∧
    (calc_name nm).all isUpperAZ = true ∧
    calc_name nm =
      (if 3 < (consonantsOf nm).length then
        [(consonantsOf nm).getD 0 'X', (consonantsOf nm).getD 2 'X', (consonantsOf nm).getD 3 'X']
       else ((consonantsOf nm ++ vowelsOf nm).take 3) ++
         List.replicate (3 - ((consonantsOf nm ++ vowelsOf nm).take 3).length) 'X') ∧
    calc_name [] = ['X', 'X', 'X'] := by
  refine ⟨?_, ?_, ?_, by decide⟩
  · simp only [calc_name]
    split
    · rename_i h
      simp only [List.length_append, List.length_take, List.length_drop]
      omega
    · simp only [List.length_append, List.length_take, List.length_replicate]
      omega
  · simp only [calc_name]
    split
    · rw [List.all_eq_true]
      intro x hx
      rcases List.mem_append.mp hx with hx | hx
      · exact consonant_isUpper (List.of_mem_filter (List.take_subset _ _ hx))
      · exact consonant_isUpper (List.of_mem_filter
          (List.drop_subset _ _ (List.take_subset _ _ hx)))
    · rw [List.all_eq_true]
      intro x hx
      rcases List.mem_append.mp hx with hx | hx
      · rcases List.mem_append.mp (List.take_subset _ _ hx) with hx | hx
        · exact consonant_isUpper (List.of_mem_filter hx)
        · rw [vowelsOf_eq] at hx
          exact vowel_isUpper (List.of_mem_filter hx)
      · rw [List.eq_of_mem_replicate hx]
        decide
  · by_cases h : 3 < (consonantsOf nm).length
    · rw [if_pos h]
      simp only [calc_name]
      rw [if_pos h]
      obtain ⟨a, b, c, d, t, hcs⟩ := four_head _ h
      rw [hcs]
      rfl
    · rw [if_neg h]
      simp only [calc_name]
      rw [if_neg h]

/-- C10: the two independent fragment extractors agree on every input: the
lib.rs `calc_name`/`calc_surname` methods and the utils.rs
`calc_name_component`/`calc_surname_component` functions compute the same
3-letter fragments (even though utils.rs gathers the vowels reversed and pops
them from the end). -/
theorem lib_utils_fragment_extractors_agree (s : List Char) :
    calc_name s = calc_name_component s ∧ calc_surname s = calc_surname_component s :=
  ⟨calc_name_agree s, calc_surname_agree s⟩
